import Mathlib

/-!
Verification model of `patch_builder/patch_builder.py`: the window
partitioner (`divide_chunks`, `patch_windows`) and the tile writer
(`pixel_world`, `write_geotiff`, `process`, plus the per-raster wiring in
`PatchBuilder.patch_items`).

Modelling conventions: Python integers are `Int` (`Nat` where the source
value is a length or array shape), GDAL floating-point data (pixel values,
geotransform coefficients, no-data values) is `Rat`, a raised exception is
`none` in an `Option` result, and the output directory is a map from path
strings to written datasets.  The thread pool of `patch_items` is modelled
by processing the window list in order; each task's observable effects
(raster reads, file writes) are recorded as an event trace.
-/

namespace PatchBuilderModel

/-- Python `range(n)` as a list of integers: `[0, 1, ..., n-1]`, empty for
`n ≤ 0`. -/
def intRange (n : ℤ) : List ℤ := (List.range n.toNat).map Int.ofNat

/-- Start indices produced by Python `range(0, len, n)` for `n > 0`: the
multiples of `n` strictly below `len`; there are `(len + n - 1) / n`
(that is, `⌈len / n⌉`) of them. -/
def chunkStarts (len n : ℕ) : List ℕ :=
  (List.range ((len + n - 1) / n)).map (fun k => k * n)

/-- Model of `divide_chunks` (patch_builder.py, lines 84-94): successive
`n`-sized slices `l[i : i + n]` of `l` for `i` in `range(0, len(l), n)`.
`none` models the `ValueError` raised by `range(0, len(l), 0)`; for a
negative `n` the Python range is empty (its stop `len(l)` is `≥ 0`), so no
chunks are produced. -/
def divide_chunks {α : Type} (l : List α) (n : ℤ) : Option (List (List α)) :=
  if n = 0 then none
  else if n < 0 then some []
  else some ((chunkStarts l.length n.toNat).map (fun i => (l.drop i).take n.toNat))

/-- Model of `patch_windows` (patch_builder.py, lines 97-112).  A window is
the tuple `(w[0], h[0], len(w), len(h))`, i.e. `(xoff, yoff, xsize, ysize)`;
`w_n` is computed before `h_n`, exactly as in the source, so a zero
`subWidth` raises before `subHeight` is looked at.  The comprehension
`[... for h in h_n for w in w_n]` varies `w` fastest. -/
def patch_windows (totalWidth totalHeight subWidth subHeight : ℤ) :
    Option (List (ℤ × ℤ × ℤ × ℤ)) := do
  let w_n ← divide_chunks (intRange totalWidth) subWidth
  let h_n ← divide_chunks (intRange totalHeight) subHeight
  pure (h_n.flatMap (fun h => w_n.map
    (fun w => (w.headI, h.headI, (w.length : ℤ), (h.length : ℤ)))))

/-- A GDAL geotransform: six coefficients
`(originX, pixelWidth, rotX, originY, rotY, pixelHeight)`, indices 0-5 of
the Python tuple returned by `GetGeoTransform()`. -/
structure GeoTransform where
  originX : ℚ
  pixelWidth : ℚ
  rotX : ℚ
  originY : ℚ
  rotY : ℚ
  pixelHeight : ℚ
deriving DecidableEq

/-- Model of `pixel_world` (patch_builder.py, lines 115-135): uses only
`geoMatrix[0] + x * geoMatrix[1]` and `geoMatrix[3] + y * geoMatrix[5]`;
the rotation coefficients `geoMatrix[2]` and `geoMatrix[4]` are not read. -/
def pixel_world (geoMatrix : GeoTransform) (x y : ℤ) : ℚ × ℚ :=
  (geoMatrix.originX + (x : ℚ) * geoMatrix.pixelWidth,
   geoMatrix.originY + (y : ℚ) * geoMatrix.pixelHeight)

/-- An opened GDAL dataset, as consulted by the tile writer.  `dtype` is an
opaque code for `GetRasterBand(1).DataType`; `pix` gives the band-1 pixel
value at (row, col); `readOk` tells whether `ReadAsArray` succeeds on a
given window (GDAL raises on out-of-bounds or I/O failure, which `process`
catches). -/
structure Raster where
  xsize : ℕ
  ysize : ℕ
  bands : ℕ
  dtype : ℕ
  proj : String
  geo : GeoTransform
  nodata : Option ℚ
  pix : ℕ → ℕ → ℚ
  readOk : ℤ × ℤ × ℤ × ℤ → Bool

/-- A 2-D NumPy array: shape `(rows, cols)` and entries. -/
structure Arr where
  rows : ℕ
  cols : ℕ
  val : ℕ → ℕ → ℚ

/-- The dataset written by `write_geotiff`: creation arguments of
`driver.Create`, the projection, the final geotransform, the band-1
no-data value and the band-1 data. -/
structure OutDataset where
  xsize : ℕ
  ysize : ℕ
  bandCount : ℕ
  dtype : ℕ
  proj : String
  geo : GeoTransform
  nodata : Option ℚ
  data : ℕ → ℕ → ℚ

/-- Model of `write_geotiff` (patch_builder.py, lines 139-167).
`driver.Create(filename, arr.shape[1], arr.shape[0], 1, ...)` fixes the
output to exactly one band of the source's band-1 data type;
`SetGeoTransform` is called twice, first with the source transform and then
with `outGeoTransform` whose entries 0 and 3 were replaced by
`pixel_world`'s result, so the second call is the surviving one;
`SetNoDataValue` copies the source band-1 no-data value. -/
def write_geotiff (arr : Arr) (in_ds : Raster) (w_index_x w_index_y : ℤ) :
    OutDataset :=
  let outGeoTransform := in_ds.geo
  let ul := pixel_world outGeoTransform w_index_x w_index_y
  { xsize := arr.cols
    ysize := arr.rows
    bandCount := 1
    dtype := in_ds.dtype
    proj := in_ds.proj
    geo := { outGeoTransform with originX := ul.1, originY := ul.2 }
    nodata := in_ds.nodata
    data := arr.val }

/-- The output directory: which path holds which written dataset. -/
def FS : Type := String → Option OutDataset

/-- Writing a dataset at a path. -/
def FS.update (fs : FS) (p : String) (d : OutDataset) : FS :=
  fun q => if q = p then some d else fs q

/-- Observable side effects of one window task: a `ReadAsArray` call on the
shared dataset, or the creation of an output file. -/
inductive Event where
  | readEv : ℤ × ℤ × ℤ × ℤ → Event
  | writeEv : String → Event
deriving DecidableEq

/-- The tuple handed to `process` by `patch_items` (line 347):
`(outfile, rows_w, cols_w, nodata, in_ds, window)`. -/
structure PInput where
  outfile : String
  rows_w : ℕ
  cols_w : ℕ
  nodata : ℚ
  in_ds : Raster
  window : ℤ × ℤ × ℤ × ℤ

/-- Model of `in_ds.ReadAsArray(xoff=window[0], yoff=window[1],
xsize=window[2], ysize=window[3])`: on success, entry `(r, c)` of the block
is the source pixel at row `yoff + r`, column `xoff + c`. -/
def readAsArray (ds : Raster) (w : ℤ × ℤ × ℤ × ℤ) : Option (ℕ → ℕ → ℚ) :=
  if ds.readOk w then
    some (fun r c => ds.pix (w.2.1.toNat + r) (w.1.toNat + c))
  else none

/-- The patch buffer `process` builds for a task, named for use in
statements: `np.ones((rows_w, cols_w)) * nodata` with the read block
copied into its top-left `window[3] × window[2]` corner. -/
def patchArr (inp : PInput) : Arr :=
  { rows := inp.rows_w
    cols := inp.cols_w
    val := fun i j =>
      if i < inp.window.2.2.2.toNat ∧ j < inp.window.2.2.1.toNat then
        inp.in_ds.pix (inp.window.2.1.toNat + i) (inp.window.1.toNat + j)
      else 1 * inp.nodata }

/-- Model of `process` (patch_builder.py, lines 170-186).  If the output
path exists, nothing at all happens.  Otherwise the buffer
`np.ones((rows_w, cols_w)) * nodata` is allocated, the window block is read
and copied into its top-left corner (the NumPy assignment
`src_array[0:window[3], 0:window[2]] = ...` succeeds exactly when the
window fits in the buffer), and `write_geotiff` creates the file.  Any
exception (failed read, shape mismatch) is caught and printed, leaving the
directory unchanged. -/
def process (window_in : PInput) (fs : FS) : FS × List Event :=
  match window_in with
  | ⟨outfile, rows_w, cols_w, nodata, in_ds, window⟩ =>
    if (fs outfile).isSome then (fs, [])
    else
      match readAsArray in_ds window with
      | none => (fs, [Event.readEv window])
      | some block =>
        if window.2.2.2.toNat ≤ rows_w ∧ window.2.2.1.toNat ≤ cols_w then
          (FS.update fs outfile
            (write_geotiff
              { rows := rows_w, cols := cols_w
                val := fun i j =>
                  if i < window.2.2.2.toNat ∧ j < window.2.2.1.toNat then block i j
                  else 1 * nodata }
              in_ds window.1 window.2.1),
           [Event.readEv window, Event.writeEv outfile])
        else (fs, [Event.readEv window])

/-- The loop of `patch_items` mapping `process` over the window list
(lines 350-354), sequentialized; traces are concatenated in order. -/
def writePatches : List PInput → FS → FS × List Event
  | [], fs => (fs, [])
  | w :: rest, fs =>
    let r := process w fs
    let rr := writePatches rest r.1
    (rr.1, r.2 ++ rr.2)

/-- Model of `process` (lines 170-186) with the write-failure path of the
bare `except` made explicit: the GDAL calls behind `write_geotiff`
(`driver.Create`, `WriteArray`, `FlushCache`) are external I/O that can
raise, and the `except` at lines 185-186 catches such an exception exactly
like a failed read, leaving the directory unchanged.  `wok` tells for
which output paths the write succeeds; `process` is the restriction of
this semantics to runs in which every write succeeds
(`processW_all_writes_ok`). -/
def processW (wok : String → Bool) (window_in : PInput) (fs : FS) :
    FS × List Event :=
  match window_in with
  | ⟨outfile, rows_w, cols_w, nodata, in_ds, window⟩ =>
    if (fs outfile).isSome then (fs, [])
    else
      match readAsArray in_ds window with
      | none => (fs, [Event.readEv window])
      | some block =>
        if window.2.2.2.toNat ≤ rows_w ∧ window.2.2.1.toNat ≤ cols_w then
          if wok outfile then
            (FS.update fs outfile
              (write_geotiff
                { rows := rows_w, cols := cols_w
                  val := fun i j =>
                    if i < window.2.2.2.toNat ∧ j < window.2.2.1.toNat then
                      block i j
                    else 1 * nodata }
                in_ds window.1 window.2.1),
             [Event.readEv window, Event.writeEv outfile])
          else (fs, [Event.readEv window])
        else (fs, [Event.readEv window])

/-- The write loop of `patch_items` under the write-success oracle `wok`. -/
def writePatchesW (wok : String → Bool) : List PInput → FS → FS × List Event
  | [], fs => (fs, [])
  | w :: rest, fs =>
    let r := processW wok w fs
    let rr := writePatchesW wok rest r.1
    (rr.1, r.2 ++ rr.2)

/-- The no-data fallback of `patch_items` (lines 343-345): the value used
to fill the patch buffer is the band-1 no-data value, or `0` when the
source declares none. -/
def effNoData (nd : Option ℚ) : ℚ :=
  match nd with
  | some v => v
  | none => 0

/-- The window list built by `patch_items` (lines 347-348): one `PInput`
per window of `patch_windows(ds.RasterXSize, ds.RasterYSize, self._wsize,
self._hsize)`, the output path carrying the enumeration index. -/
def patchInputs (base_out fext : String) (hsize wsize : ℕ) (ds : Raster) :
    Option (List PInput) :=
  (patch_windows ds.xsize ds.ysize wsize hsize).map (fun wins =>
    wins.enum.map (fun ce =>
      ⟨base_out ++ "_" ++ toString ce.1 ++ fext, hsize, wsize,
       effNoData ds.nodata, ds, ce.2⟩))

/-- The value `patch_items` hands back to its caller: the function body has
no `return` statement and the results of `executor.map(process, windows)`
are discarded, so the caller receives Python's `None`. -/
def patch_items_ret (ws : List PInput) (fs : FS) : Unit :=
  let _ := writePatches ws fs
  ()

/-- Ground-truth outcome classification of one window task, read off the
event trace of `process`: no events means the existence check skipped it, a
write event means a file was produced, a lone read event means the task
failed (read error or shape mismatch). -/
inductive Status where
  | written : Status
  | skipped : Status
  | failed : Status
deriving DecidableEq

/-- Classify one task from its trace. -/
def processStatus (inp : PInput) (fs : FS) : Status :=
  if (process inp fs).2 = [] then Status.skipped
  else if (process inp fs).2.any (fun e =>
      match e with
      | Event.writeEv _ => true
      | _ => false) then Status.written
  else Status.failed

/-- Tally one task outcome into `(written, skipped, failed)` counts. -/
def addStatus : Status → ℕ × ℕ × ℕ → ℕ × ℕ × ℕ
  | Status.written, (a, b, c) => (a + 1, b, c)
  | Status.skipped, (a, b, c) => (a, b + 1, c)
  | Status.failed, (a, b, c) => (a, b, c + 1)

/-- The run of `writePatches` instrumented with ground-truth
`(written, skipped, failed)` counts. -/
def writePatchesCounted : List PInput → FS → FS × (ℕ × ℕ × ℕ)
  | [], fs => (fs, (0, 0, 0))
  | inp :: rest, fs =>
    let s := processStatus inp fs
    let r := writePatchesCounted rest (process inp fs).1
    (r.1, addStatus s r.2)

/-! Partitioner theory: a closed form for `patch_windows` on positive
inputs, and the tiling facts that follow from it. -/

/-- Closed form of the window list for positive patch sizes: row-major
cross product of the x-chunks and y-chunks, the last chunk on each axis
clipped to the raster. -/
def windowsNF (W H pw ph : ℕ) : List (ℤ × ℤ × ℤ × ℤ) :=
  (List.range ((H + ph - 1) / ph)).flatMap (fun j =>
    (List.range ((W + pw - 1) / pw)).map (fun i =>
      (((i * pw : ℕ) : ℤ), ((j * ph : ℕ) : ℤ),
       ((min pw (W - i * pw) : ℕ) : ℤ), ((min ph (H - j * ph) : ℕ) : ℤ))))

/-- A pixel (column `x`, row `y`) lies inside a window
`(xoff, yoff, xsize, ysize)`. -/
def winContains (w : ℤ × ℤ × ℤ × ℤ) (x y : ℕ) : Prop :=
  w.1 ≤ (x : ℤ) ∧ (x : ℤ) < w.1 + w.2.2.1 ∧
  w.2.1 ≤ (y : ℤ) ∧ (y : ℤ) < w.2.1 + w.2.2.2

instance (w : ℤ × ℤ × ℤ × ℤ) (x y : ℕ) : Decidable (winContains w x y) := by
  unfold winContains
  infer_instance

/-- Statement predicate for the coverage claim: the windows are pairwise
disjoint rectangles with aligned, in-bounds offsets whose union is exactly
the pixel rectangle `[0, W) × [0, H)`. -/
def IsExactTiling (W H pw ph : ℕ) (wins : List (ℤ × ℤ × ℤ × ℤ)) : Prop :=
  (∀ w ∈ wins, ((pw : ℤ) ∣ w.1) ∧ ((ph : ℤ) ∣ w.2.1) ∧
    0 ≤ w.1 ∧ 0 ≤ w.2.1 ∧ 0 < w.2.2.1 ∧ 0 < w.2.2.2 ∧
    w.1 + w.2.2.1 ≤ (W : ℤ) ∧ w.2.1 + w.2.2.2 ≤ (H : ℤ)) ∧
  (∀ x y : ℕ, x < W → y < H → ∃ w ∈ wins, winContains w x y) ∧
  (∀ w ∈ wins, ∀ x y : ℕ, winContains w x y → x < W ∧ y < H) ∧
  (∀ w₁ ∈ wins, ∀ w₂ ∈ wins, w₁ ≠ w₂ →
    ∀ x y : ℕ, winContains w₁ x y → ¬ winContains w₂ x y)

/-- A task fails (its caught exception leaves no file) exactly when the
raster read raises or the read block does not fit the patch buffer. -/
def TaskFails (inp : PInput) : Prop :=
  inp.in_ds.readOk inp.window = false ∨
  ¬(inp.window.2.2.2.toNat ≤ inp.rows_w ∧ inp.window.2.2.1.toNat ≤ inp.cols_w)

/-- A geotransform with non-zero rotation coefficients. -/
def gRot : GeoTransform := ⟨0, 1, 1, 0, 1, 1⟩

/-- A north-up geotransform (zero rotation). -/
def gPlain : GeoTransform := ⟨10, 2, 0, 20, 0, -2⟩

/-- A 1×1 array of zeros. -/
def arr0 : Arr := ⟨1, 1, fun _ _ => 0⟩

/-- A rotated single-band source raster. -/
def rRot : Raster :=
  ⟨2, 2, 1, 3, "EPSG:32633", gRot, some 0, fun _ _ => 0, fun _ => true⟩

/-- A two-band source raster. -/
def rTwoBand : Raster :=
  ⟨2, 2, 2, 3, "EPSG:32633", gPlain, some 0, fun _ _ => 0, fun _ => true⟩

/-- A 1×1 source raster that declares no no-data value. -/
def rPlain : Raster :=
  ⟨1, 1, 1, 3, "EPSG:32633", gPlain, none, fun _ _ => 7, fun _ => true⟩

/-- A 1×1 source raster whose single pixel equals its no-data value 5. -/
def rNod : Raster :=
  ⟨1, 1, 1, 3, "EPSG:32633", gPlain, some 5, fun _ _ => 5, fun _ => true⟩

/-- A source raster on which every read raises. -/
def rFail : Raster :=
  ⟨1, 1, 1, 3, "EPSG:32633", gPlain, some 0, fun _ _ => 0, fun _ => false⟩

/-- A pre-existing output dataset. -/
def d0 : OutDataset := ⟨1, 1, 1, 3, "EPSG:32633", gPlain, some 0, fun _ _ => 0⟩

/-- An empty output directory. -/
def fsEmpty : FS := fun _ => none

/-- A directory already holding a file at path `p`. -/
def fsP : FS := fun q => if q = "p" then some d0 else none

/-- A task over the all-no-data raster `rNod`. -/
def wNod : PInput := ⟨"p", 1, 1, 5, rNod, (0, 0, 1, 1)⟩

/-- A task whose raster read always fails. -/
def wFail : PInput := ⟨"q", 1, 1, 0, rFail, (0, 0, 1, 1)⟩

/-- A write-success oracle under which creating the file "p" fails. -/
def wokNotP : String → Bool := fun p => p != "p"

lemma headI_of_head? {α : Type} [Inhabited α] {l : List α} {a : α}
    (h : l.head? = some a) : l.headI = a := by
  cases l with
  | nil => simp at h
  | cons x t => simp at h; simpa [List.headI]

lemma head?_take_pos {α : Type} (l : List α) (n : ℕ) (h : 0 < n) :
    (l.take n).head? = l.head? := by
  cases l <;> cases n <;> simp_all

lemma intRange_length (W : ℕ) : (intRange (W : ℤ)).length = W := by
  simp [intRange]

lemma intRange_getElem? (W a : ℕ) (h : a < W) :
    (intRange (W : ℤ))[a]? = some (a : ℤ) := by
  simp [intRange, List.getElem?_map, List.getElem?_range, h]

lemma chunk_headI (W pw a : ℕ) (hpw : 0 < pw) (ha : a < W) :
    ((((intRange (W : ℤ)).drop a).take pw)).headI = (a : ℤ) := by
  apply headI_of_head?
  rw [head?_take_pos _ _ hpw, List.head?_drop, intRange_getElem? W a ha]

lemma chunk_length (W pw a : ℕ) :
    ((((intRange (W : ℤ)).drop a).take pw)).length = min pw (W - a) := by
  simp [List.length_take, List.length_drop, intRange_length]

lemma lt_cdiv_iff (W pw k : ℕ) (hpw : 0 < pw) :
    k < (W + pw - 1) / pw ↔ k * pw < W := by
  rcases Nat.eq_zero_or_pos W with hW | hW
  · subst hW
    have h0 : (0 + pw - 1) / pw = 0 := Nat.div_eq_of_lt (by omega)
    rw [h0]
    constructor <;> intro hh <;> omega
  · have h1 : W + pw - 1 = (W - 1) + pw := by omega
    rw [h1, Nat.add_div_right _ hpw, Nat.lt_succ_iff, Nat.le_div_iff_mul_le hpw]
    generalize k * pw = t
    omega

lemma flatMap_congr_mem {α β : Type} (l : List α) (f g : α → List β)
    (h : ∀ a ∈ l, f a = g a) : l.flatMap f = l.flatMap g := by
  induction l with
  | nil => rfl
  | cons x t ih =>
    simp only [List.flatMap_cons]
    rw [h x (by simp), ih (fun a ha => h a (by simp [ha]))]

lemma divide_chunks_pos {α : Type} (l : List α) (pw : ℕ) (hpw : 0 < pw) :
    divide_chunks l (pw : ℤ) =
      some ((chunkStarts l.length pw).map (fun i => (l.drop i).take pw)) := by
  have h0 : ((pw : ℤ) = 0) = False := by simp [hpw.ne']
  have h1 : ((pw : ℤ) < 0) = False := by
    simp [Int.not_lt.mpr (Int.natCast_nonneg pw)]
  simp [divide_chunks, h0, h1]

lemma patch_windows_eq_nf (W H pw ph : ℕ) (hpw : 0 < pw) (hph : 0 < ph) :
    patch_windows (W : ℤ) (H : ℤ) (pw : ℤ) (ph : ℤ) =
      some (windowsNF W H pw ph) := by
  rw [patch_windows, divide_chunks_pos _ pw hpw, divide_chunks_pos _ ph hph]
  simp only [Option.bind_eq_bind, Option.some_bind, intRange_length, chunkStarts,
    List.map_map, Option.pure_def, Option.some.injEq]
  rw [List.flatMap_map, windowsNF]
  apply flatMap_congr_mem
  intro j hj
  apply List.map_congr_left
  intro i hi
  simp only [List.mem_range] at hj hi
  have hjH : j * ph < H := (lt_cdiv_iff H ph j hph).mp hj
  have hiW : i * pw < W := (lt_cdiv_iff W pw i hpw).mp hi
  simp only [Function.comp]
  rw [chunk_headI W pw _ hpw hiW, chunk_headI H ph _ hph hjH,
    chunk_length, chunk_length]

lemma mem_windowsNF {W H pw ph : ℕ} {w : ℤ × ℤ × ℤ × ℤ} :
    w ∈ windowsNF W H pw ph ↔
      ∃ j, j < (H + ph - 1) / ph ∧ ∃ i, i < (W + pw - 1) / pw ∧
        w = (((i * pw : ℕ) : ℤ), ((j * ph : ℕ) : ℤ),
             ((min pw (W - i * pw) : ℕ) : ℤ), ((min ph (H - j * ph) : ℕ) : ℤ)) := by
  simp only [windowsNF, List.mem_flatMap, List.mem_map, List.mem_range]
  constructor
  · rintro ⟨j, hj, i, hi, rfl⟩
    exact ⟨j, hj, i, hi, rfl⟩
  · rintro ⟨j, hj, i, hi, rfl⟩
    exact ⟨j, hj, i, hi, rfl⟩

lemma same_block (pw i₁ i₂ x : ℕ) (h₁ : i₁ * pw ≤ x) (h₁' : x < i₁ * pw + pw)
    (h₂ : i₂ * pw ≤ x) (h₂' : x < i₂ * pw + pw) : i₁ = i₂ := by
  rcases lt_trichotomy i₁ i₂ with h | h | h
  · have hs : (i₁ + 1) * pw ≤ i₂ * pw := Nat.mul_le_mul_right _ h
    rw [Nat.succ_mul] at hs
    omega
  · exact h
  · have hs : (i₂ + 1) * pw ≤ i₁ * pw := Nat.mul_le_mul_right _ h
    rw [Nat.succ_mul] at hs
    omega

/-- C3: for all positive `W, H, pw, ph`, the windows returned by
`patch_windows (W, H, pw, ph)` are pairwise disjoint rectangles whose union
is exactly the pixel rectangle `[0, W) × [0, H)`; each window's offsets are
multiples of `pw` and `ph` respectively and satisfy `offset + size ≤ W`
(resp. `H`) on each axis. -/
theorem patch_windows_exact_tiling (W H pw ph : ℕ)
    (hW : 0 < W) (hH : 0 < H) (hpw : 0 < pw) (hph : 0 < ph) :
    ∃ wins, patch_windows (W : ℤ) (H : ℤ) (pw : ℤ) (ph : ℤ) = some wins ∧
      IsExactTiling W H pw ph wins := by
  refine ⟨windowsNF W H pw ph, patch_windows_eq_nf W H pw ph hpw hph,
    ?_, ?_, ?_, ?_⟩
  · -- aligned, in-bounds, positive-size windows
    intro w hw
    rw [mem_windowsNF] at hw
    obtain ⟨j, hj, i, hi, rfl⟩ := hw
    have hiW : i * pw < W := (lt_cdiv_iff W pw i hpw).mp hi
    have hjH : j * ph < H := (lt_cdiv_iff H ph j hph).mp hj
    refine ⟨⟨(i : ℤ), by push_cast; ring⟩, ⟨(j : ℤ), by push_cast; ring⟩,
      ?_, ?_, ?_, ?_, ?_, ?_⟩ <;> dsimp only <;> omega
  · -- coverage of every pixel of [0, W) × [0, H)
    intro x y hx hy
    have ex : x / pw * pw ≤ x ∧ x < x / pw * pw + pw := by
      have h1 := Nat.div_add_mod x pw
      have h2 := Nat.mod_lt x hpw
      rw [mul_comm (x / pw) pw]
      omega
    have ey : y / ph * ph ≤ y ∧ y < y / ph * ph + ph := by
      have h1 := Nat.div_add_mod y ph
      have h2 := Nat.mod_lt y hph
      rw [mul_comm (y / ph) ph]
      omega
    have hiW : x / pw * pw < W := lt_of_le_of_lt ex.1 hx
    have hjH : y / ph * ph < H := lt_of_le_of_lt ey.1 hy
    refine ⟨(((x / pw * pw : ℕ) : ℤ), ((y / ph * ph : ℕ) : ℤ),
      ((min pw (W - x / pw * pw) : ℕ) : ℤ), ((min ph (H - y / ph * ph) : ℕ) : ℤ)),
      ?_, ?_, ?_, ?_, ?_⟩
    · rw [mem_windowsNF]
      exact ⟨y / ph, (lt_cdiv_iff H ph _ hph).mpr hjH,
             x / pw, (lt_cdiv_iff W pw _ hpw).mpr hiW, rfl⟩
    · dsimp only
      omega
    · dsimp only
      omega
    · dsimp only
      omega
    · dsimp only
      omega
  · -- every covered pixel is inside the raster
    intro w hw x y hc
    rw [mem_windowsNF] at hw
    obtain ⟨j, hj, i, hi, rfl⟩ := hw
    have hiW : i * pw < W := (lt_cdiv_iff W pw i hpw).mp hi
    have hjH : j * ph < H := (lt_cdiv_iff H ph j hph).mp hj
    obtain ⟨c1, c2, c3, c4⟩ := hc
    dsimp only at c1 c2 c3 c4
    constructor <;> omega
  · -- pairwise disjointness
    intro w₁ hw₁ w₂ hw₂ hne x y hc₁ hc₂
    rw [mem_windowsNF] at hw₁ hw₂
    obtain ⟨j₁, hj₁, i₁, hi₁, rfl⟩ := hw₁
    obtain ⟨j₂, hj₂, i₂, hi₂, rfl⟩ := hw₂
    obtain ⟨a1, a2, a3, a4⟩ := hc₁
    obtain ⟨b1, b2, b3, b4⟩ := hc₂
    dsimp only at a1 a2 a3 a4 b1 b2 b3 b4
    have hx₁ : i₁ * pw ≤ x ∧ x < i₁ * pw + pw := by constructor <;> omega
    have hx₂ : i₂ * pw ≤ x ∧ x < i₂ * pw + pw := by constructor <;> omega
    have hy₁ : j₁ * ph ≤ y ∧ y < j₁ * ph + ph := by constructor <;> omega
    have hy₂ : j₂ * ph ≤ y ∧ y < j₂ * ph + ph := by constructor <;> omega
    have hii : i₁ = i₂ := same_block pw i₁ i₂ x hx₁.1 hx₁.2 hx₂.1 hx₂.2
    have hjj : j₁ = j₂ := same_block ph j₁ j₂ y hy₁.1 hy₁.2 hy₂.1 hy₂.2
    exact hne (by rw [hii, hjj])

/-- Witness for C3 at the concrete input (100, 50, 40, 40). -/
theorem patch_windows_exact_tiling_witness :
    ∃ wins, patch_windows 100 50 40 40 = some wins ∧
      IsExactTiling 100 50 40 40 wins :=
  patch_windows_exact_tiling 100 50 40 40
    (by decide) (by decide) (by decide) (by decide)

lemma length_flatMap_const {α β : Type} (l : List α) (f : α → List β) (c : ℕ)
    (h : ∀ a ∈ l, (f a).length = c) : (l.flatMap f).length = l.length * c := by
  induction l with
  | nil => simp
  | cons x t ih =>
    simp only [List.flatMap_cons, List.length_append, List.length_cons]
    rw [h x (by simp), ih (fun a ha => h a (by simp [ha]))]
    ring

lemma length_windowsNF (W H pw ph : ℕ) :
    (windowsNF W H pw ph).length =
      ((W + pw - 1) / pw) * ((H + ph - 1) / ph) := by
  rw [windowsNF, length_flatMap_const _ _ ((W + pw - 1) / pw)
    (fun a _ => by simp), List.length_range, mul_comm]

/-- C4: for all positive `W, H, pw, ph`, the number of windows returned by
`patch_windows (W, H, pw, ph)` equals `⌈W / pw⌉ * ⌈H / ph⌉` (written here
as `((W + pw - 1) / pw) * ((H + ph - 1) / ph)`, which is the ceiling for
positive divisors); in particular `patch_windows (100, 50, 40, 40)` yields
6 windows, including one at offset (80, 0) with size (20, 40) and one at
offset (80, 40) with size (20, 10). -/
theorem patch_windows_count (W H pw ph : ℕ)
    (hW : 0 < W) (hH : 0 < H) (hpw : 0 < pw) (hph : 0 < ph) :
    (∃ wins, patch_windows (W : ℤ) (H : ℤ) (pw : ℤ) (ph : ℤ) = some wins ∧
        wins.length = ((W + pw - 1) / pw) * ((H + ph - 1) / ph)) ∧
    (∃ L, patch_windows 100 50 40 40 = some L ∧ L.length = 6 ∧
        ((80 : ℤ), (0 : ℤ), (20 : ℤ), (40 : ℤ)) ∈ L ∧
        ((80 : ℤ), (40 : ℤ), (20 : ℤ), (10 : ℤ)) ∈ L) := by
  constructor
  · exact ⟨windowsNF W H pw ph, patch_windows_eq_nf W H pw ph hpw hph,
      length_windowsNF W H pw ph⟩
  · refine ⟨[(0, 0, 40, 40), (40, 0, 40, 40), (80, 0, 20, 40),
      (0, 40, 40, 10), (40, 40, 40, 10), (80, 40, 20, 10)],
      by decide, by decide, by decide, by decide⟩

/-- Witness for C4 at the concrete input (100, 50, 40, 40). -/
theorem patch_windows_count_witness :
    (∃ wins, patch_windows 100 50 40 40 = some wins ∧
        wins.length = ((100 + 40 - 1) / 40) * ((50 + 40 - 1) / 40)) ∧
    (∃ L, patch_windows 100 50 40 40 = some L ∧ L.length = 6 ∧
        ((80 : ℤ), (0 : ℤ), (20 : ℤ), (40 : ℤ)) ∈ L ∧
        ((80 : ℤ), (40 : ℤ), (20 : ℤ), (10 : ℤ)) ∈ L) :=
  patch_windows_count 100 50 40 40 (by decide) (by decide) (by decide) (by decide)

lemma flatMap_nil_fun {α β : Type} (l : List α) :
    l.flatMap (fun _ => ([] : List β)) = [] := by
  induction l <;> simp_all

lemma divide_chunks_neg {α : Type} (l : List α) (n : ℤ) (hn : n < 0) :
    divide_chunks l n = some [] := by
  simp [divide_chunks, hn, hn.ne]

lemma intRange_nonpos (W : ℤ) (hW : W ≤ 0) : intRange W = [] := by
  simp [intRange, Int.toNat_of_nonpos hW]

lemma chunkStarts_zero (n : ℕ) (hn : 0 < n) : chunkStarts 0 n = [] := by
  simp [chunkStarts, Nat.div_eq_of_lt (show n - 1 < n by omega)]

lemma divide_chunks_total {α : Type} (l : List α) (n : ℤ) (hn : n ≠ 0) :
    ∃ cl, divide_chunks l n = some cl ∧
      (n < 0 → cl = []) ∧ (l = [] → cl = []) := by
  rcases lt_or_gt_of_ne hn with h | h
  · exact ⟨[], divide_chunks_neg l n h, fun _ => rfl, fun _ => rfl⟩
  · refine ⟨(chunkStarts l.length n.toNat).map (fun i => (l.drop i).take n.toNat),
      ?_, fun hc => absurd h (by omega), fun hl => ?_⟩
    · simp [divide_chunks, hn, not_lt.mpr h.le]
    · subst hl
      rw [List.length_nil, chunkStarts_zero n.toNat (by omega), List.map_nil]

/-- C8 counterexample: calling the partitioner with a non-positive total
width raises no error (an error is modelled by the `none` result, which the
code produces only for a zero patch dimension); `patch_windows 0 10 5 5`
returns normally, with an empty window list. -/
theorem patch_windows_nonpositive_counterexample :
    ¬ (patch_windows 0 10 5 5 = none) ∧ patch_windows 0 10 5 5 = some [] := by
  constructor
  · intro h
    exact absurd h (by decide)
  · decide

/-- C8 amended: the partitioner raises immediately (producing no windows)
exactly when the patch width or patch height is zero — the `ValueError` of
`range(0, len, 0)`; any other non-positive argument (non-positive total
width or height, negative patch width or height) raises nothing and yields
an empty window list. -/
theorem patch_windows_error_behaviour (W H pw ph : ℤ) :
    ((pw = 0 ∨ ph = 0) → patch_windows W H pw ph = none) ∧
    (pw ≠ 0 → ph ≠ 0 → (W ≤ 0 ∨ H ≤ 0 ∨ pw < 0 ∨ ph < 0) →
      patch_windows W H pw ph = some []) := by
  constructor
  · rintro (h | h)
    · subst h
      simp [patch_windows, divide_chunks]
    · subst h
      rcases Decidable.em (pw = 0) with hpw | hpw
      · subst hpw
        simp [patch_windows, divide_chunks]
      · obtain ⟨wl, hwl, -, -⟩ := divide_chunks_total (intRange W) pw hpw
        simp [patch_windows, hwl, divide_chunks]
  · intro hpw hph hdisj
    obtain ⟨wl, hwl, hwneg, hwnil⟩ := divide_chunks_total (intRange W) pw hpw
    obtain ⟨hl, hhl, hhneg, hhnil⟩ := divide_chunks_total (intRange H) ph hph
    have hres : patch_windows W H pw ph =
        some (hl.flatMap (fun h => wl.map
          (fun w => (w.headI, h.headI, (w.length : ℤ), (h.length : ℤ))))) := by
      simp [patch_windows, hwl, hhl]
    have hempty : wl = [] ∨ hl = [] := by
      rcases hdisj with h | h | h | h
      · exact Or.inl (hwnil (intRange_nonpos W h))
      · exact Or.inr (hhnil (intRange_nonpos H h))
      · exact Or.inl (hwneg h)
      · exact Or.inr (hhneg h)
    rcases hempty with h | h
    · subst h
      rw [hres]
      simp [flatMap_nil_fun]
    · subst h
      rw [hres]
      simp

/-- Witness for C8's amended statement: patch width 0 raises, and a
negative total width returns an empty list. -/
theorem patch_windows_error_behaviour_witness :
    patch_windows 10 7 0 5 = none ∧ patch_windows (-3) 7 4 5 = some [] :=
  ⟨(patch_windows_error_behaviour 10 7 0 5).1 (Or.inl rfl),
   (patch_windows_error_behaviour (-3) 7 4 5).2 (by decide) (by decide)
     (Or.inl (by decide))⟩

/-- C1 counterexample: for the source transform `gRot = (0, 1, 1, 0, 1, 1)`
and the window at pixel offset (0, 1), the full 6-coefficient affine image
of the offset has x-coordinate `0 + 0*1 + 1*1 = 1`, but the patch written
by the tile writer carries origin x-coordinate `0` — `pixel_world` never
reads the rotation coefficients. -/
theorem write_geotiff_rotation_counterexample :
    (write_geotiff arr0 rRot 0 1).geo.originX ≠
      rRot.geo.originX + (0 : ℚ) * rRot.geo.pixelWidth +
        (1 : ℚ) * rRot.geo.rotX := by
  simp [write_geotiff, pixel_world, rRot, gRot, arr0]

/-- C1 amended: the patch's geotransform is the source transform with its
origin replaced by the two-term simplification
`(ox0 + ox*px, oy0 + oy*py)`, which ignores the rotation coefficients;
this equals the full 6-coefficient affine image of the offset only when
both rotation terms are zero. -/
theorem write_geotiff_transform_origin (arr : Arr) (in_ds : Raster) (ox oy : ℤ) :
    (write_geotiff arr in_ds ox oy).geo =
      { in_ds.geo with
        originX := in_ds.geo.originX + (ox : ℚ) * in_ds.geo.pixelWidth
        originY := in_ds.geo.originY + (oy : ℚ) * in_ds.geo.pixelHeight } ∧
    (in_ds.geo.rotX = 0 → in_ds.geo.rotY = 0 →
      (write_geotiff arr in_ds ox oy).geo.originX =
        in_ds.geo.originX + (ox : ℚ) * in_ds.geo.pixelWidth +
          (oy : ℚ) * in_ds.geo.rotX ∧
      (write_geotiff arr in_ds ox oy).geo.originY =
        in_ds.geo.originY + (ox : ℚ) * in_ds.geo.rotY +
          (oy : ℚ) * in_ds.geo.pixelHeight) := by
  refine ⟨rfl, fun hx hy => ⟨?_, ?_⟩⟩ <;>
    simp [write_geotiff, pixel_world, hx, hy]

/-- Witness for C1's amended statement on a rotation-free raster. -/
theorem write_geotiff_transform_origin_witness :
    (write_geotiff arr0 rPlain 2 3).geo =
      { rPlain.geo with
        originX := rPlain.geo.originX + (2 : ℚ) * rPlain.geo.pixelWidth
        originY := rPlain.geo.originY + (3 : ℚ) * rPlain.geo.pixelHeight } ∧
    (write_geotiff arr0 rPlain 2 3).geo.originX =
      rPlain.geo.originX + (2 : ℚ) * rPlain.geo.pixelWidth +
        (3 : ℚ) * rPlain.geo.rotX ∧
    (write_geotiff arr0 rPlain 2 3).geo.originY =
      rPlain.geo.originY + (2 : ℚ) * rPlain.geo.rotY +
        (3 : ℚ) * rPlain.geo.pixelHeight :=
  ⟨(write_geotiff_transform_origin arr0 rPlain 2 3).1,
   ((write_geotiff_transform_origin arr0 rPlain 2 3).2 rfl rfl).1,
   ((write_geotiff_transform_origin arr0 rPlain 2 3).2 rfl rfl).2⟩

/-- C6 counterexample: on the two-band source raster `rTwoBand`, the
dataset created by `write_geotiff` has band count 1, not the source's 2 —
`driver.Create` is called with a hard-coded band count of 1. -/
theorem write_geotiff_band_count_counterexample :
    (write_geotiff arr0 rTwoBand 0 0).bandCount ≠ rTwoBand.bands := by
  decide

/-- C6 amended: every output patch raster is created with exactly one band,
carrying the source's band-1 data type, the source's band-1 no-data value
and the source's coordinate reference system; its band count equals the
source's only when the source is single-band. -/
theorem write_geotiff_metadata (arr : Arr) (in_ds : Raster) (ox oy : ℤ) :
    (write_geotiff arr in_ds ox oy).bandCount = 1 ∧
    (write_geotiff arr in_ds ox oy).dtype = in_ds.dtype ∧
    (write_geotiff arr in_ds ox oy).proj = in_ds.proj ∧
    (write_geotiff arr in_ds ox oy).nodata = in_ds.nodata ∧
    (in_ds.bands = 1 → (write_geotiff arr in_ds ox oy).bandCount = in_ds.bands) := by
  exact ⟨rfl, rfl, rfl, rfl, fun h => by simp [write_geotiff, h]⟩

/-- Witness for C6's amended statement on a single-band raster. -/
theorem write_geotiff_metadata_witness :
    (write_geotiff arr0 rPlain 0 0).bandCount = 1 ∧
    (write_geotiff arr0 rPlain 0 0).dtype = rPlain.dtype ∧
    (write_geotiff arr0 rPlain 0 0).proj = rPlain.proj ∧
    (write_geotiff arr0 rPlain 0 0).nodata = rPlain.nodata ∧
    (write_geotiff arr0 rPlain 0 0).bandCount = rPlain.bands :=
  ⟨(write_geotiff_metadata arr0 rPlain 0 0).1,
   (write_geotiff_metadata arr0 rPlain 0 0).2.1,
   (write_geotiff_metadata arr0 rPlain 0 0).2.2.1,
   (write_geotiff_metadata arr0 rPlain 0 0).2.2.2.1,
   (write_geotiff_metadata arr0 rPlain 0 0).2.2.2.2 rfl⟩

/-! Tile-writer theory: case analysis of `process` and the induction
lemmas for `writePatches`. -/

lemma FS.update_self (fs : FS) (p : String) (d : OutDataset) :
    FS.update fs p d p = some d := by
  simp [FS.update]

lemma FS.update_other (fs : FS) (p q : String) (d : OutDataset) (h : q ≠ p) :
    FS.update fs p d q = fs q := by
  simp [FS.update, h]

lemma process_of_exists (inp : PInput) (fs : FS)
    (h : (fs inp.outfile).isSome = true) : process inp fs = (fs, []) := by
  cases inp with
  | mk o r c nd ds w =>
    dsimp only at h
    simp [process, h]

lemma process_write (inp : PInput) (fs : FS)
    (h1 : (fs inp.outfile).isSome = false)
    (h2 : inp.in_ds.readOk inp.window = true)
    (h3 : inp.window.2.2.2.toNat ≤ inp.rows_w ∧
      inp.window.2.2.1.toNat ≤ inp.cols_w) :
    process inp fs =
      (FS.update fs inp.outfile
        (write_geotiff (patchArr inp) inp.in_ds inp.window.1 inp.window.2.1),
       [Event.readEv inp.window, Event.writeEv inp.outfile]) := by
  cases inp with
  | mk o r c nd ds w =>
    dsimp only at h1 h2 h3 ⊢
    simp only [process, readAsArray, h2, if_true, patchArr]
    simp [h1, h3]

lemma process_of_fail (inp : PInput) (fs : FS)
    (h1 : (fs inp.outfile).isSome = false) (h : TaskFails inp) :
    process inp fs = (fs, [Event.readEv inp.window]) := by
  cases inp with
  | mk o r c nd ds w =>
    unfold TaskFails at h
    dsimp only at h1 h ⊢
    rcases h with h2 | h3
    · simp [process, readAsArray, h1, h2]
    · by_cases h2 : ds.readOk w = true
      · simp only [process, readAsArray, h2, if_true]
        rw [if_neg h3]
        simp [h1]
      · have h2' : ds.readOk w = false := by simpa using h2
        simp [process, readAsArray, h1, h2']

lemma process_eq_cases (inp : PInput) (fs : FS) :
    process inp fs = (fs, []) ∨
    process inp fs = (fs, [Event.readEv inp.window]) ∨
    process inp fs =
      (FS.update fs inp.outfile
        (write_geotiff (patchArr inp) inp.in_ds inp.window.1 inp.window.2.1),
       [Event.readEv inp.window, Event.writeEv inp.outfile]) := by
  by_cases h1 : (fs inp.outfile).isSome = true
  · exact Or.inl (process_of_exists inp fs h1)
  · have h1' : (fs inp.outfile).isSome = false := by simpa using h1
    by_cases h2 : inp.in_ds.readOk inp.window = true
    · by_cases h3 : inp.window.2.2.2.toNat ≤ inp.rows_w ∧
        inp.window.2.2.1.toNat ≤ inp.cols_w
      · exact Or.inr (Or.inr (process_write inp fs h1' h2 h3))
      · exact Or.inr (Or.inl (process_of_fail inp fs h1' (Or.inr h3)))
    · have h2' : inp.in_ds.readOk inp.window = false := by simpa using h2
      exact Or.inr (Or.inl (process_of_fail inp fs h1' (Or.inl h2')))

lemma process_of_taskFails (inp : PInput) (fs : FS) (h : TaskFails inp) :
    (process inp fs).1 = fs ∧ ∀ p, Event.writeEv p ∉ (process inp fs).2 := by
  by_cases h1 : (fs inp.outfile).isSome = true
  · rw [process_of_exists inp fs h1]
    exact ⟨rfl, by simp⟩
  · rw [process_of_fail inp fs (by simpa using h1) h]
    exact ⟨rfl, by simp⟩

lemma process_fst_mono (inp : PInput) (fs : FS) (p : String)
    (h : (fs p).isSome = true) : ((process inp fs).1 p).isSome = true := by
  rcases process_eq_cases inp fs with he | he | he <;> rw [he]
  · exact h
  · exact h
  · dsimp only
    by_cases hq : p = inp.outfile
    · subst hq
      rw [FS.update_self]
      rfl
    · rw [FS.update_other _ _ _ _ hq]
      exact h

lemma writePatches_nil (fs : FS) : writePatches [] fs = (fs, []) := rfl

lemma writePatches_cons (w : PInput) (ws : List PInput) (fs : FS) :
    writePatches (w :: ws) fs =
      ((writePatches ws (process w fs).1).1,
       (process w fs).2 ++ (writePatches ws (process w fs).1).2) := rfl

lemma writePatches_fst_mono (ws : List PInput) (fs : FS) (p : String)
    (h : (fs p).isSome = true) : ((writePatches ws fs).1 p).isSome = true := by
  induction ws generalizing fs with
  | nil => exact h
  | cons w rest ih =>
    rw [writePatches_cons]
    exact ih _ (process_fst_mono w fs p h)

lemma process_outfile_or_fails (inp : PInput) (fs : FS) :
    ((process inp fs).1 inp.outfile).isSome = true ∨ TaskFails inp := by
  by_cases h1 : (fs inp.outfile).isSome = true
  · rw [process_of_exists inp fs h1]
    exact Or.inl h1
  · have h1' : (fs inp.outfile).isSome = false := by simpa using h1
    by_cases h2 : inp.in_ds.readOk inp.window = true
    · by_cases h3 : inp.window.2.2.2.toNat ≤ inp.rows_w ∧
        inp.window.2.2.1.toNat ≤ inp.cols_w
      · rw [process_write inp fs h1' h2 h3]
        dsimp only
        rw [FS.update_self]
        exact Or.inl rfl
      · exact Or.inr (Or.inr h3)
    · exact Or.inr (Or.inl (by simpa using h2))

lemma writePatches_outfile_postcond (ws : List PInput) (fs : FS) :
    ∀ inp ∈ ws,
      ((writePatches ws fs).1 inp.outfile).isSome = true ∨ TaskFails inp := by
  induction ws generalizing fs with
  | nil => intro inp hmem; simp at hmem
  | cons w rest ih =>
    intro inp hmem
    rw [writePatches_cons]
    dsimp only
    rcases List.mem_cons.mp hmem with rfl | hmem'
    · rcases process_outfile_or_fails inp fs with h | h
      · exact Or.inl (writePatches_fst_mono rest _ _ h)
      · exact Or.inr h
    · exact ih _ inp hmem'

lemma writePatches_noop (ws : List PInput) (fs : FS)
    (h : ∀ inp ∈ ws, (fs inp.outfile).isSome = true ∨ TaskFails inp) :
    (writePatches ws fs).1 = fs ∧
      ∀ p, Event.writeEv p ∉ (writePatches ws fs).2 := by
  induction ws with
  | nil => exact ⟨rfl, by simp [writePatches_nil]⟩
  | cons w rest ih =>
    have hpw : process w fs = (fs, []) ∨
        process w fs = (fs, [Event.readEv w.window]) := by
      rcases h w (by simp) with h1 | h1
      · exact Or.inl (process_of_exists w fs h1)
      · by_cases hex : (fs w.outfile).isSome = true
        · exact Or.inl (process_of_exists w fs hex)
        · exact Or.inr (process_of_fail w fs (by simpa using hex) h1)
    obtain ⟨ih1, ih2⟩ := ih (fun inp hm => h inp (by simp [hm]))
    rcases hpw with he | he <;> rw [writePatches_cons, he] <;> dsimp only <;>
      refine ⟨ih1, fun p hp => ?_⟩ <;> rw [List.mem_append] at hp <;>
      rcases hp with hp | hp <;> first
        | simp at hp
        | exact ih2 p hp

lemma process_write_in_trace (inp : PInput) (fs : FS) (p : String)
    (h : Event.writeEv p ∈ (process inp fs).2) :
    ((process inp fs).1 p).isSome = true := by
  rcases process_eq_cases inp fs with he | he | he <;> rw [he] at h ⊢
  · simp at h
  · simp at h
  · dsimp only at h ⊢
    have hp : p = inp.outfile := by
      simp only [List.mem_cons, List.not_mem_nil, or_false] at h
      rcases h with h | h
      · exact absurd h (by simp)
      · exact (Event.writeEv.injEq _ _).mp h
    subst hp
    rw [FS.update_self]
    rfl

lemma writePatches_write_in_trace (ws : List PInput) (fs : FS) (p : String)
    (h : Event.writeEv p ∈ (writePatches ws fs).2) :
    ((writePatches ws fs).1 p).isSome = true := by
  induction ws generalizing fs with
  | nil => simp [writePatches_nil] at h
  | cons w rest ih =>
    rw [writePatches_cons] at h ⊢
    dsimp only at h ⊢
    rw [List.mem_append] at h
    rcases h with h | h
    · exact writePatches_fst_mono rest _ p (process_write_in_trace w fs p h)
    · exact ih _ h

/-- C2 counterexample: on the raster `rNod`, whose every pixel equals its
no-data value 5, `process` still writes the output file — the code's only
skip condition is prior existence of the output path; no no-data
inspection is performed. -/
theorem process_allnodata_writes_counterexample :
    (∀ r c : ℕ, rNod.pix r c = 5) ∧ rNod.nodata = some 5 ∧
    ((process wNod fsEmpty).1 wNod.outfile).isSome = true :=
  ⟨fun _ _ => rfl, rfl, rfl⟩

/-- C2 amended: for every window task whose output path does not yet
exist, whose raster read succeeds and whose block fits the patch buffer,
`process` writes the output file, regardless of the pixel content — in
particular also when the block is entirely no-data. -/
theorem process_no_nodata_skip (inp : PInput) (fs : FS)
    (h1 : (fs inp.outfile).isSome = false)
    (h2 : inp.in_ds.readOk inp.window = true)
    (h3 : inp.window.2.2.2.toNat ≤ inp.rows_w ∧
      inp.window.2.2.1.toNat ≤ inp.cols_w) :
    ((process inp fs).1 inp.outfile).isSome = true := by
  rw [process_write inp fs h1 h2 h3]
  dsimp only
  rw [FS.update_self]
  rfl

/-- Witness for C2's amended statement: the all-no-data task `wNod` on an
empty directory produces a file. -/
theorem process_no_nodata_skip_witness :
    ((process wNod fsEmpty).1 wNod.outfile).isSome = true :=
  process_no_nodata_skip wNod fsEmpty rfl rfl (by decide)

/-- C7: if the target output path of a window already exists, `process`
skips that window entirely — no raster read, no write, the directory
unchanged; consequently a second run of the write loop over the same
window list changes nothing: it writes no file, and every window the first
run wrote is skipped (its processing has no effect and no events). -/
theorem process_skip_idempotent :
    (∀ (inp : PInput) (fs : FS), (fs inp.outfile).isSome = true →
      process inp fs = (fs, [])) ∧
    (∀ (ws : List PInput) (fs0 : FS),
      (writePatches ws (writePatches ws fs0).1).1 = (writePatches ws fs0).1 ∧
      (∀ p, Event.writeEv p ∉ (writePatches ws (writePatches ws fs0).1).2) ∧
      (∀ inp ∈ ws, Event.writeEv inp.outfile ∈ (writePatches ws fs0).2 →
        process inp (writePatches ws fs0).1 = ((writePatches ws fs0).1, []))) := by
  refine ⟨process_of_exists, fun ws fs0 => ?_⟩
  have hpost : ∀ inp ∈ ws,
      ((writePatches ws fs0).1 inp.outfile).isSome = true ∨ TaskFails inp :=
    writePatches_outfile_postcond ws fs0
  obtain ⟨h1, h2⟩ := writePatches_noop ws (writePatches ws fs0).1 hpost
  exact ⟨h1, h2, fun inp _ hwr =>
    process_of_exists inp _ (writePatches_write_in_trace ws fs0 inp.outfile hwr)⟩

/-- Witness for C7: a pre-existing file is skipped with no events, and a
one-window run is idempotent. -/
theorem process_skip_idempotent_witness :
    process wNod fsP = (fsP, []) ∧
    (writePatches [wNod] (writePatches [wNod] fsEmpty).1).1 =
      (writePatches [wNod] fsEmpty).1 :=
  ⟨process_skip_idempotent.1 wNod fsP rfl,
   (process_skip_idempotent.2 [wNod] fsEmpty).1⟩

/-- C9 counterexample: the write loop reports no written/skipped/failed
counts to its caller — `patch_items` returns `None` — so no function of
the returned value can recover the counts: an empty run and a run with one
failing window return the same value but have different failed counts. -/
theorem patch_items_reports_no_counts_counterexample :
    ¬ ∃ f : Unit → ℕ × ℕ × ℕ,
      ∀ (ws : List PInput) (fs : FS),
        f (patch_items_ret ws fs) = (writePatchesCounted ws fs).2 := by
  rintro ⟨f, hf⟩
  have h0 := hf [] fsEmpty
  have h1 := hf [wFail] fsEmpty
  have e0 : (writePatchesCounted [] fsEmpty).2 = (0, 0, 0) := rfl
  have e1 : (writePatchesCounted [wFail] fsEmpty).2 = (0, 0, 1) := rfl
  rw [e0] at h0
  rw [e1] at h1
  have hsame : patch_items_ret [] fsEmpty = patch_items_ret [wFail] fsEmpty := rfl
  rw [hsame, h1] at h0
  exact absurd h0 (by decide)

lemma processW_all_writes_ok (inp : PInput) (fs : FS) :
    processW (fun _ => true) inp fs = process inp fs := by
  cases inp with
  | mk o r c nd ds w =>
    simp only [processW, process]
    rcases hr : readAsArray ds w with _ | block <;> simp

lemma writePatchesW_all_writes_ok (ws : List PInput) (fs : FS) :
    writePatchesW (fun _ => true) ws fs = writePatches ws fs := by
  induction ws generalizing fs with
  | nil => rfl
  | cons w rest ih =>
    simp only [writePatchesW, writePatches, processW_all_writes_ok, ih]

lemma writePatchesW_cons (wok : String → Bool) (w : PInput)
    (ws : List PInput) (fs : FS) :
    writePatchesW wok (w :: ws) fs =
      ((writePatchesW wok ws (processW wok w fs).1).1,
       (processW wok w fs).2 ++ (writePatchesW wok ws (processW wok w fs).1).2) :=
  rfl

lemma processW_fst_of_fail (wok : String → Bool) (inp : PInput) (fs : FS)
    (h : inp.in_ds.readOk inp.window = false ∨ wok inp.outfile = false) :
    (processW wok inp fs).1 = fs := by
  cases inp with
  | mk o r c nd ds w =>
    dsimp only at h ⊢
    by_cases h1 : (fs o).isSome = true
    · simp [processW, h1]
    · have hnone : fs o = none := by
        cases he : fs o
        · rfl
        · rw [he] at h1; simp at h1
      rcases h with h2 | h2
      · simp [processW, readAsArray, hnone, h2]
      · by_cases hr : ds.readOk w = true
        · by_cases h3 : w.2.2.2.toNat ≤ r ∧ w.2.2.1.toNat ≤ c
          · simp [processW, readAsArray, hnone, hr, h3, h2]
          · simp only [processW, readAsArray, hr, if_true]
            rw [if_neg h3]
            simp [hnone]
        · have hr' : ds.readOk w = false := by simpa using hr
          simp [processW, readAsArray, hnone, hr']

/-- C9 amended: a read or write failure inside one window's task is caught
there — the directory is unchanged by the failing task, and the whole run
over a window list containing the failing task produces exactly the files
of the run without it, so sibling windows are unaffected; failing writes
are the write-success oracle of `processW`, whose all-writes-succeed
restriction is `process`; however, the operation reports no counts to its
caller (see the counterexample). -/
theorem process_failure_isolation (wf : PInput) (wok : String → Bool)
    (hfail : wf.in_ds.readOk wf.window = false ∨ wok wf.outfile = false) :
    (∀ fs : FS, (processW wok wf fs).1 = fs) ∧
    (∀ (ws1 ws2 : List PInput) (fs : FS),
      (writePatchesW wok (ws1 ++ wf :: ws2) fs).1 =
        (writePatchesW wok (ws1 ++ ws2) fs).1) := by
  have hone : ∀ fs : FS, (processW wok wf fs).1 = fs := fun fs =>
    processW_fst_of_fail wok wf fs hfail
  refine ⟨hone, fun ws1 ws2 fs => ?_⟩
  induction ws1 generalizing fs with
  | nil =>
    rw [List.nil_append, List.nil_append, writePatchesW_cons, hone fs]
  | cons w t ih =>
    rw [List.cons_append, List.cons_append, writePatchesW_cons,
      writePatchesW_cons]
    exact ih _

/-- Witness for C9's amended statement: once with the read-failing task
`wFail` between sibling windows (all writes succeeding), and once with the
task `wNod`, whose read succeeds but whose write of "p" fails under the
oracle `wokNotP`, next to a sibling window. -/
theorem process_failure_isolation_witness :
    (processW (fun _ => true) wFail fsEmpty).1 = fsEmpty ∧
    (writePatchesW (fun _ => true) ([wNod] ++ wFail :: [wNod]) fsEmpty).1 =
      (writePatchesW (fun _ => true) ([wNod] ++ [wNod]) fsEmpty).1 ∧
    (processW wokNotP wNod fsEmpty).1 = fsEmpty ∧
    (writePatchesW wokNotP ([wFail] ++ wNod :: []) fsEmpty).1 =
      (writePatchesW wokNotP ([wFail] ++ []) fsEmpty).1 :=
  ⟨(process_failure_isolation wFail (fun _ => true) (Or.inl rfl)).1 fsEmpty,
   (process_failure_isolation wFail (fun _ => true) (Or.inl rfl)).2
     [wNod] [wNod] fsEmpty,
   (process_failure_isolation wNod wokNotP (Or.inr rfl)).1 fsEmpty,
   (process_failure_isolation wNod wokNotP (Or.inr rfl)).2 [wFail] [] fsEmpty⟩

lemma mem_enum_snd {α : Type} (l : List α) (p : ℕ × α) (h : p ∈ l.enum) :
    p.2 ∈ l := by
  rcases p with ⟨i, x⟩
  rw [List.mk_mem_enum_iff_getElem?] at h
  obtain ⟨hlt, he⟩ := List.getElem?_eq_some.mp h
  exact he ▸ List.getElem_mem hlt

/-- C5: every patch file produced through the `patch_items` wiring has
dimensions exactly (patch width, patch height) — also for ragged edge
windows — and every buffer pixel outside the source window holds the
raster's declared no-data value, or zero when the source declares none
(the `effNoData` fallback of `patch_items`). -/
theorem patch_uniform_size_padding (ds : Raster) (hsize wsize : ℕ)
    (base_out fext : String) (hh : 0 < hsize) (hwz : 0 < wsize) :
    ∃ inputs, patchInputs base_out fext hsize wsize ds = some inputs ∧
      ∀ inp ∈ inputs, inp.rows_w = hsize ∧ inp.cols_w = wsize ∧
        ∀ fs : FS, (fs inp.outfile).isSome = false →
          inp.in_ds.readOk inp.window = true →
          ∃ d : OutDataset, (process inp fs).1 inp.outfile = some d ∧
            d.xsize = wsize ∧ d.ysize = hsize ∧
            (∀ i j : ℕ,
              inp.window.2.2.2.toNat ≤ i ∨ inp.window.2.2.1.toNat ≤ j →
              d.data i j = effNoData ds.nodata) := by
  have hpw : patchInputs base_out fext hsize wsize ds =
      some ((windowsNF ds.xsize ds.ysize wsize hsize).enum.map (fun ce =>
        ⟨base_out ++ "_" ++ toString ce.1 ++ fext, hsize, wsize,
         effNoData ds.nodata, ds, ce.2⟩)) := by
    rw [patchInputs, patch_windows_eq_nf ds.xsize ds.ysize wsize hsize hwz hh]
    rfl
  refine ⟨_, hpw, ?_⟩
  intro inp hinp
  obtain ⟨ce, hce, rfl⟩ := List.mem_map.mp hinp
  have hwmem : ce.2 ∈ windowsNF ds.xsize ds.ysize wsize hsize :=
    mem_enum_snd _ _ hce
  rw [mem_windowsNF] at hwmem
  obtain ⟨j, hj, i, hi, hw2⟩ := hwmem
  refine ⟨rfl, rfl, fun fs h1 h2 => ?_⟩
  have hshape : (ce.2).2.2.2.toNat ≤ hsize ∧ (ce.2).2.2.1.toNat ≤ wsize := by
    rw [hw2]
    dsimp only
    constructor <;> simp
  rw [process_write _ fs h1 h2 hshape]
  dsimp only
  rw [FS.update_self]
  refine ⟨_, rfl, rfl, rfl, fun i' j' hout => ?_⟩
  show (patchArr _).val i' j' = effNoData ds.nodata
  rw [patchArr]
  dsimp only
  rw [if_neg (by omega)]
  exact one_mul _

/-- Witness for C5 on the 1×1 raster `rPlain`, which declares no no-data
value, with patch size 2×2 (a padded, ragged window). -/
theorem patch_uniform_size_padding_witness :
    ∃ inputs, patchInputs "b" ".tif" 2 2 rPlain = some inputs ∧
      ∀ inp ∈ inputs, inp.rows_w = 2 ∧ inp.cols_w = 2 ∧
        ∀ fs : FS, (fs inp.outfile).isSome = false →
          inp.in_ds.readOk inp.window = true →
          ∃ d : OutDataset, (process inp fs).1 inp.outfile = some d ∧
            d.xsize = 2 ∧ d.ysize = 2 ∧
            (∀ i j : ℕ,
              inp.window.2.2.2.toNat ≤ i ∨ inp.window.2.2.1.toNat ≤ j →
              d.data i j = effNoData rPlain.nodata) :=
  patch_uniform_size_padding rPlain 2 2 "b" ".tif" (by decide) (by decide)

end PatchBuilderModel
